import Mathlib

/-!
Verification development for the macro-micro linkage statistics pipeline.

The definitions below are a shallow embedding of the data-normalization
pipeline (`estat_services.py`: robust date parsing, tidy transformation,
wide pivoting with gap filling), the forecasting engine
(`analysis_services.py`: frequency normalization, fit/diagnose/predict)
and the forecast endpoint checks (`main.py`).

Modelling conventions:
- floating point values are modelled as rationals (ℚ);
- pandas NaN/NaT cells are modelled as `none` of an `Option` type;
- raised Python exceptions are modelled with `Except`;
- calls into external libraries (pandas `to_datetime` generic parsing,
  `pmdarima.auto_arima`, `statsmodels.acorr_ljungbox`, `numpy.std`) are
  modelled either by a small executable model of their documented
  behaviour or by an explicit function parameter with its documented
  contract as a hypothesis.
-/

/-- Calendar date (year, month, day). Pandas timestamp range limits are not
modelled. -/
structure Date where
  y : Nat
  m : Nat
  d : Nat
deriving DecidableEq

/-- Order key of a date: for valid calendar dates this is the YYYYMMDD
number, whose numeric order is chronological order. -/
def Date.key (dt : Date) : Nat := dt.y * 10000 + dt.m * 100 + dt.d

/-- Absolute month number of a date (year * 12 + zero-based month). -/
def Date.monthIdx (dt : Date) : Nat := dt.y * 12 + (dt.m - 1)

/-- First day of absolute month `k` (a month-start anchor, as produced by
pandas `MS` frequency). -/
def monthStart (k : Nat) : Date := ⟨k / 12, k % 12 + 1, 1⟩

/-- Rebuild a date from its YYYYMMDD order key. -/
def keyToDate (k : Nat) : Date := ⟨k / 10000, k % 10000 / 100, k % 100⟩

/-! ### Character-list utilities

Python string operations (`strip`, `in`, `replace`, `isdigit`, slicing)
are modelled structurally on `List Char`. -/

def isSpaceC (c : Char) : Bool := c = ' ' || c = '\t' || c = '\n' || c = '\r'

/-- Model of Python `str.strip()`. -/
def trimL (s : List Char) : List Char :=
  ((s.dropWhile isSpaceC).reverse.dropWhile isSpaceC).reverse

def startsWithL : List Char → List Char → Bool
  | _, [] => true
  | [], _ :: _ => false
  | a :: as, b :: bs => a = b && startsWithL as bs

/-- Model of Python `pat in s`. -/
def containsL : List Char → List Char → Bool
  | [], pat => pat.isEmpty
  | a :: as, pat => startsWithL (a :: as) pat || containsL as pat

/-- Worker for `replaceL`; the fuel argument (initially the string length)
only makes the left-to-right non-overlapping scan structural. -/
def replaceGo (pat rep : List Char) : Nat → List Char → List Char
  | _, [] => []
  | 0, xs => xs
  | fuel + 1, a :: as =>
    if !pat.isEmpty && startsWithL (a :: as) pat then
      rep ++ replaceGo pat rep fuel (as.drop (pat.length - 1))
    else
      a :: replaceGo pat rep fuel as

/-- Model of Python `s.replace(pat, rep)` (all non-overlapping occurrences,
left to right). -/
def replaceL (s pat rep : List Char) : List Char := replaceGo pat rep s.length s

def isDigitC (c : Char) : Bool := '0' ≤ c && c ≤ '9'

/-- Model of Python `s.isdigit()` (nonempty and all decimal digits). -/
def isDigitsL (s : List Char) : Bool := !s.isEmpty && s.all isDigitC

def digitsToNat (s : List Char) : Nat := s.foldl (fun acc c => acc * 10 + (c.toNat - 48)) 0

def splitOnC (sep : Char) : List Char → List (List Char)
  | [] => [[]]
  | c :: cs =>
    match splitOnC sep cs with
    | [] => [[c]]
    | g :: gs => if c = sep then [] :: g :: gs else (c :: g) :: gs

def containsS (s pat : String) : Bool := containsL s.data pat.data

/-! ### Robust date parsing (`parse_date_robust`) -/

def leapYear (y : Nat) : Bool := (y % 4 = 0 && y % 100 ≠ 0) || y % 400 = 0

def daysInMonth (y m : Nat) : Nat :=
  if m = 2 then (if leapYear y then 29 else 28)
  else if m = 4 || m = 6 || m = 9 || m = 11 then 30
  else 31

def validYMD (y m d : Nat) : Bool :=
  1 ≤ m && m ≤ 12 && 1 ≤ d && d ≤ daysInMonth y m

def mkDate (y m d : Nat) : Option Date :=
  if validYMD y m d then some ⟨y, m, d⟩ else none

/-- Model of the generic pandas `to_datetime` parse as used on the
dash-separated strings produced by the kanji replacements and on the final
fallback branch: accepts "YYYY", "YYYY-M" and "YYYY-M-D" with a four-digit
year, validating the calendar; anything else is a parse failure (`none`,
i.e. `NaT`). -/
def parseDashDate (s : List Char) : Option Date :=
  match splitOnC '-' s with
  | [a] => if isDigitsL a && a.length = 4 then mkDate (digitsToNat a) 1 1 else none
  | [a, b] =>
    if isDigitsL a && a.length = 4 && isDigitsL b && b.length ≤ 2 then
      mkDate (digitsToNat a) (digitsToNat b) 1
    else none
  | [a, b, c] =>
    if isDigitsL a && a.length = 4 && isDigitsL b && b.length ≤ 2
        && isDigitsL c && c.length ≤ 2 then
      mkDate (digitsToNat a) (digitsToNat b) (digitsToNat c)
    else none
  | _ => none

/-- Model of `pd.to_datetime(s, format="%Y%m")` on a 6-digit string. -/
def parseYYYYMM (s : List Char) : Option Date :=
  mkDate (digitsToNat (s.take 4)) (digitsToNat (s.drop 4)) 1

/-- Model of `pd.to_datetime(s, format="%Y%m%d")` on an 8-digit string. -/
def parseYYYYMMDD (s : List Char) : Option Date :=
  mkDate (digitsToNat (s.take 4)) (digitsToNat ((s.drop 4).take 2)) (digitsToNat (s.drop 6))

/-- Embedding of `parse_date_robust` (estat_services.py lines 83-102):
strip the label, then try in order: month marker 月, fiscal-year marker
年度, bare year marker 年, 6-digit YYYYMM, 8-digit YYYYMMDD, 4-digit YYYY,
and finally the generic parse; every failure yields `none` (`NaT`),
mirroring the `except`/`errors="coerce"` paths. -/
def parseDateRobust (x : String) : Option Date :=
  let s := trimL x.data
  if containsL s "月".data then
    parseDashDate (replaceL (replaceL s "年".data "-".data) "月".data "-01".data)
  else if containsL s "年度".data then
    parseDashDate (replaceL s "年度".data "-04-01".data)
  else if containsL s "年".data then
    parseDashDate (replaceL s "年".data "-01-01".data)
  else if isDigitsL s && s.length = 6 then parseYYYYMM s
  else if isDigitsL s && s.length = 8 then parseYYYYMMDD s
  else if isDigitsL s && s.length = 4 then mkDate (digitsToNat s) 1 1
  else parseDashDate s

/-- C3: `parse_date_robust` applies its rules in a fixed order with the
first match winning — month marker 月, then fiscal-year marker 年度, then
bare year marker 年, then the pure 6-digit, 8-digit and 4-digit numeric
forms, then a generic calendar parse; unsupported strings yield a
recoverable `none` (the row is dropped), never a crash; and the label
"2023年度" parses to 2023-04-01. -/
theorem c3_date_rule_order :
    (∀ x : String, containsL (trimL x.data) "月".data = true →
      parseDateRobust x
        = parseDashDate (replaceL (replaceL (trimL x.data) "年".data "-".data) "月".data "-01".data))
  ∧ (∀ x : String, containsL (trimL x.data) "月".data = false →
      containsL (trimL x.data) "年度".data = true →
      parseDateRobust x = parseDashDate (replaceL (trimL x.data) "年度".data "-04-01".data))
  ∧ (∀ x : String, containsL (trimL x.data) "月".data = false →
      containsL (trimL x.data) "年度".data = false →
      containsL (trimL x.data) "年".data = true →
      parseDateRobust x = parseDashDate (replaceL (trimL x.data) "年".data "-01-01".data))
  ∧ (∀ x : String, containsL (trimL x.data) "月".data = false →
      containsL (trimL x.data) "年度".data = false →
      containsL (trimL x.data) "年".data = false →
      isDigitsL (trimL x.data) = true → (trimL x.data).length = 6 →
      parseDateRobust x = parseYYYYMM (trimL x.data))
  ∧ (∀ x : String, containsL (trimL x.data) "月".data = false →
      containsL (trimL x.data) "年度".data = false →
      containsL (trimL x.data) "年".data = false →
      isDigitsL (trimL x.data) = true → (trimL x.data).length = 8 →
      parseDateRobust x = parseYYYYMMDD (trimL x.data))
  ∧ (∀ x : String, containsL (trimL x.data) "月".data = false →
      containsL (trimL x.data) "年度".data = false →
      containsL (trimL x.data) "年".data = false →
      isDigitsL (trimL x.data) = true → (trimL x.data).length = 4 →
      parseDateRobust x = mkDate (digitsToNat (trimL x.data)) 1 1)
  ∧ (∀ x : String, containsL (trimL x.data) "月".data = false →
      containsL (trimL x.data) "年度".data = false →
      containsL (trimL x.data) "年".data = false →
      isDigitsL (trimL x.data) = false →
      parseDateRobust x = parseDashDate (trimL x.data))
  ∧ parseDateRobust "2023年度" = some ⟨2023, 4, 1⟩
  ∧ parseDateRobust "2023年4月" = some ⟨2023, 4, 1⟩
  ∧ parseDateRobust "2023年" = some ⟨2023, 1, 1⟩
  ∧ parseDateRobust "202303" = some ⟨2023, 3, 1⟩
  ∧ parseDateRobust "20230315" = some ⟨2023, 3, 15⟩
  ∧ parseDateRobust "2023" = some ⟨2023, 1, 1⟩
  ∧ parseDateRobust "2023-05-02" = some ⟨2023, 5, 2⟩
  ∧ parseDateRobust "foo" = none := by
  refine ⟨?_, ?_, ?_, ?_, ?_, ?_, ?_, ?_, ?_, ?_, ?_, ?_, ?_, ?_, ?_⟩
  · intro x h1
    simp only [parseDateRobust, h1, if_true]
  · intro x h1 h2
    simp only [parseDateRobust, h1, h2, Bool.false_eq_true, if_false, if_true]
  · intro x h1 h2 h3
    simp only [parseDateRobust, h1, h2, h3, Bool.false_eq_true, if_false, if_true]
  · intro x h1 h2 h3 h4 h5
    simp [parseDateRobust, h1, h2, h3, h4, h5]
  · intro x h1 h2 h3 h4 h5
    simp [parseDateRobust, h1, h2, h3, h4, h5]
  · intro x h1 h2 h3 h4 h5
    simp [parseDateRobust, h1, h2, h3, h4, h5]
  · intro x h1 h2 h3 h4
    simp [parseDateRobust, h1, h2, h3, h4]
  · decide
  · decide
  · decide
  · decide
  · decide
  · decide
  · decide
  · decide

/-- Witness for C3: the month rule, instantiated at "2023年4月", with its
hypothesis discharged concretely. -/
theorem c3_date_rule_order_witness :
    containsL (trimL ("2023年4月" : String).data) "月".data = true
  ∧ parseDateRobust "2023年4月"
      = parseDashDate (replaceL (replaceL (trimL ("2023年4月" : String).data)
          "年".data "-".data) "月".data "-01".data) :=
  ⟨by decide, c3_date_rule_order.1 "2023年4月" (by decide)⟩

/-! ### Tabular model

A pandas DataFrame is modelled as a column-name list plus rows of
association lists from column name to an optional cell value (a missing
key and an explicit `none` both stand for NaN). -/

inductive CVal where
  | str : String → CVal
  | num : ℚ → CVal
  | date : Date → CVal
deriving DecidableEq

abbrev Row := List (String × Option CVal)

structure DF where
  cols : List String
  rows : List Row
deriving DecidableEq

def rlookup (r : Row) (k : String) : Option CVal :=
  match r.find? (fun kv => kv.1 = k) with
  | some kv => kv.2
  | none => none

/-- Accumulate column names in order of first appearance. -/
def addCols (acc : List String) : List String → List String
  | [] => acc
  | k :: ks => addCols (if acc.contains k then acc else acc ++ [k]) ks

def colsUnion (rows : List (List (String × String))) : List String :=
  rows.foldl (fun acc r => addCols acc (r.map (·.1))) []

/-- Model of `pd.DataFrame(values)` on the raw VALUE records (all cells strings). -/
def mkDF (values : List (List (String × String))) : DF :=
  ⟨colsUnion values, values.map (fun r => r.map (fun kv => (kv.1, some (CVal.str kv.2))))⟩

/-! ### Upstream payload shape -/

structure ClassItem where
  code : String
  label : String
deriving DecidableEq

structure ClassObj where
  id : String
  name : String
  classList : List ClassItem
deriving DecidableEq

/-- The parts of the e-Stat JSON payload that `_transform_to_tidy_data`
inspects: presence of STATISTICAL_DATA, the DATA_INF.VALUE record list and
the CLASS_INF.CLASS_OBJ list. -/
structure Payload where
  hasStatData : Bool
  values : List (List (String × String))
  classObjs : List ClassObj

/-- The code→label map of one classification object (Python dict
comprehension: a later duplicate code overrides an earlier one). -/
def lookupCode (items : List ClassItem) (c : String) : Option String :=
  (items.reverse.find? (fun it => it.code = c)).map (·.label)

/-- One step of `_apply_metadata`: if column `@id` exists, append the
human-label column `@name` with the mapped codes (unmapped codes become
NaN) and drop the coded column. -/
def applyObj (df : DF) (o : ClassObj) : DF :=
  let colId := "@" ++ o.id
  if df.cols.contains colId then
    { cols := (df.cols.filter (fun c => c ≠ colId && c ≠ o.name)) ++ [o.name],
      rows := df.rows.map (fun r =>
        (r.filter (fun kv => kv.1 ≠ colId && kv.1 ≠ o.name))
          ++ [(o.name,
               match rlookup r colId with
               | some (CVal.str s) => (lookupCode o.classList s).map CVal.str
               | _ => none)]) }
  else df

def applyMetadata (df : DF) (objs : List ClassObj) : DF := objs.foldl applyObj df

def renameCol (df : DF) (a b : String) : DF :=
  ⟨df.cols.map (fun c => if c = a then b else c),
   df.rows.map (fun r => r.map (fun kv => (if kv.1 = a then b else kv.1, kv.2)))⟩

def mapCol (df : DF) (c : String) (f : Option CVal → Option CVal) : DF :=
  ⟨df.cols, df.rows.map (fun r => r.map (fun kv => if kv.1 = c then (kv.1, f kv.2) else kv))⟩

/-! ### Numeric coercion (`pd.to_numeric(..., errors="coerce")`) -/

def parsePosRat (s : List Char) : Option ℚ :=
  match splitOnC '.' s with
  | [a] => if isDigitsL a then some (digitsToNat a) else none
  | [a, b] =>
    if isDigitsL a && isDigitsL b then
      some ((digitsToNat a : ℚ) + (digitsToNat b : ℚ) / ((10 : ℚ) ^ b.length))
    else none
  | _ => none

/-- Decimal number parsing; exponents and thousands separators are not
modelled. -/
def parseRatL (s : List Char) : Option ℚ :=
  match s with
  | '-' :: t => (parsePosRat t).map Neg.neg
  | t => parsePosRat t

/-- Cell-wise `to_numeric(errors="coerce")`: non-numeric entries become
NaN. -/
def coerceNumCell (c : Option CVal) : Option CVal :=
  match c with
  | some (CVal.str s) => (parseRatL (trimL s.data)).map CVal.num
  | some (CVal.num q) => some (CVal.num q)
  | _ => none

/-- Cell-wise `parse_date_robust` via `Series.apply` (any non-string cell
stringifies to an unsupported label and yields NaT). -/
def parseDateCell (c : Option CVal) : Option CVal :=
  match c with
  | some (CVal.str s) => (parseDateRobust s).map CVal.date
  | some (CVal.date d) => some (CVal.date d)
  | _ => none

/-! ### Row dropping and sorting -/

def rowHasParsedDate (r : Row) : Bool :=
  match rlookup r "date" with
  | some (CVal.date _) => true
  | _ => false

/-- Model of `df.dropna(subset=["date"])`. -/
def dropNaDate (df : DF) : DF := ⟨df.cols, df.rows.filter rowHasParsedDate⟩

def dateKeyOfRow (r : Row) : Nat :=
  match rlookup r "date" with
  | some (CVal.date d) => d.key
  | _ => 0

/-- Stable ascending sort by a numeric key (models `sort_values` /
`sort_index`; only the resulting order matters here). -/
def sortByKey {α : Type} (key : α → Nat) (l : List α) : List α :=
  l.insertionSort (fun x y => key x ≤ key y)

/-- Model of `df.sort_values("date", ascending=True)`. -/
def sortRowsByDate (df : DF) : DF := ⟨df.cols, sortByKey dateKeyOfRow df.rows⟩

/-! ### The tidy transformation (`_transform_to_tidy_data`) -/

inductive TErr where
  | statDataEmpty
  | noData
  | keyErrorValue
  | missingColumns
deriving DecidableEq

/-- The transform up to numeric coercion (estat_services.py lines 54-74):
STATISTICAL_DATA presence check, DataFrame construction with the 0-row
check, metadata application, "$"→"value" rename, and `to_numeric` on the
value column (a missing value column is a Python KeyError). -/
def tidyPhaseOne (p : Payload) : Except TErr DF :=
  if !p.hasStatData then .error .statDataEmpty
  else
    let df0 := mkDF p.values
    if df0.rows.isEmpty || df0.cols.isEmpty then .error .noData
    else
      let df1 := applyMetadata df0 p.classObjs
      let df2 := if df1.cols.contains "$" then renameCol df1 "$" "value" else df1
      if !df2.cols.contains "value" then .error .keyErrorValue
      else .ok (mapCol df2 "value" coerceNumCell)

def timeColsOf (df : DF) : List String := df.cols.filter (fun c => containsS c "時間軸")

/-- Embedding of `_transform_to_tidy_data` (estat_services.py lines
53-118): after the prefix, if a time-axis column (name containing 時間軸)
exists, rename it to `date`, parse each label, drop rows whose date failed
to parse and sort ascending by date; finally require both `date` and
`value` columns. -/
def transformToTidy (p : Payload) : Except TErr DF :=
  match tidyPhaseOne p with
  | .error e => .error e
  | .ok df3 =>
    let df6 :=
      match timeColsOf df3 with
      | [] => df3
      | tc :: _ =>
        sortRowsByDate (dropNaDate (mapCol (renameCol df3 tc "date") "date" parseDateCell))
    if !df6.cols.contains "date" || !df6.cols.contains "value" then .error .missingColumns
    else .ok df6

deriving instance DecidableEq for Except

/-! ### Wide projection (`to_wide_format`) -/

def cellDateKey (c : Option CVal) : Option Nat :=
  match c with
  | some (CVal.date d) => some d.key
  | _ => none

def cellNum (c : Option CVal) : Option ℚ :=
  match c with
  | some (CVal.num q) => some q
  | _ => none

def cellStr (c : Option CVal) : Option String :=
  match c with
  | some (CVal.str s) => some s
  | _ => none

/-- Sort key standing for NaT, which pandas sorts last. -/
def natSent : Nat := 100000000

structure WideDF where
  index : List (Option Date)
  cols : List String
  colData : List (List (Option ℚ))
deriving DecidableEq

def insDedupNat (k : Nat) : List Nat → List Nat
  | [] => [k]
  | a :: as => if k < a then k :: a :: as else if k = a then a :: as else a :: insDedupNat k as

/-- Sorted distinct keys (the pivot index). -/
def dedupSortNat (l : List Nat) : List Nat := l.foldr insDedupNat []

/-- Position (≤ i) and value of the nearest non-NaN entry at or before
position `i`. -/
def prevSome (xs : List (Option ℚ)) (i : Nat) : Option (Nat × ℚ) :=
  (List.range (i + 1)).reverse.findSome? (fun j => (xs.getD j none).map (fun v => (j, v)))

/-- Position (≥ i) and value of the nearest non-NaN entry at or after
position `i`. -/
def nextSome (xs : List (Option ℚ)) (i : Nat) : Option (Nat × ℚ) :=
  (List.range' i (xs.length - i)).findSome? (fun j => (xs.getD j none).map (fun v => (j, v)))

/-- One cell of `interpolate(method="linear", limit_direction="both")`:
interior gaps get positional linear interpolation, leading/trailing gaps
are clamped to the nearest valid value. -/
def interpCell (xs : List (Option ℚ)) (i : Nat) : Option ℚ :=
  match xs.getD i none with
  | some v => some v
  | none =>
    match prevSome xs i, nextSome xs i with
    | some jv, some kv =>
      some (jv.2 + (kv.2 - jv.2) * ((i : ℚ) - (jv.1 : ℚ)) / ((kv.1 : ℚ) - (jv.1 : ℚ)))
    | none, some kv => some kv.2
    | some jv, none => some jv.2
    | none, none => none

def fillBoth (xs : List (Option ℚ)) : List (Option ℚ) :=
  (List.range xs.length).map (interpCell xs)

def bfillCell (xs : List (Option ℚ)) (i : Nat) : Option ℚ :=
  match xs.getD i none with
  | some v => some v
  | none => (nextSome xs i).map (·.2)

def ffillCell (xs : List (Option ℚ)) (i : Nat) : Option ℚ :=
  match xs.getD i none with
  | some v => some v
  | none => (prevSome xs i).map (·.2)

def bfillL (xs : List (Option ℚ)) : List (Option ℚ) :=
  (List.range xs.length).map (bfillCell xs)

def ffillL (xs : List (Option ℚ)) : List (Option ℚ) :=
  (List.range xs.length).map (ffillCell xs)

/-- The gap-filling applied per column by `to_wide_format` (lines 147-148):
linear interpolation in both directions, then backward fill, then forward
fill. -/
def wideFill (xs : List (Option ℚ)) : List (Option ℚ) := ffillL (bfillL (fillBoth xs))

/-- Mean of the non-NaN values of a group (`aggfunc="mean"`); NaN when the
group has no valid value. -/
def meanOpt (vs : List ℚ) : Option ℚ :=
  if vs.isEmpty then none else some (vs.sum / (vs.length : ℚ))

/-- Embedding of `to_wide_format` (estat_services.py lines 132-150).
Empty input or missing index/values columns yield an empty table; without
the category column the table is the date-sorted single "value" column;
otherwise a pivot: one column per category, cell = mean of the values
sharing (date, category), rows with NaT date or NaN category excluded from
grouping, all-NaN columns dropped (`pivot_table` default `dropna`), index
the sorted distinct dates; both branches end with the gap filling.
Ordering uses the YYYYMMDD key, so invalid-calendar corner cases of
duplicate keys are identified. -/
def toWideFormat (df : DF) (indexCol columnsCol valuesCol : String) : WideDF :=
  if df.rows.isEmpty || !df.cols.contains indexCol || !df.cols.contains valuesCol then
    ⟨[], [], []⟩
  else if !df.cols.contains columnsCol then
    let sorted := sortByKey (fun r => (cellDateKey (rlookup r indexCol)).getD natSent) df.rows
    ⟨sorted.map (fun r => (cellDateKey (rlookup r indexCol)).map keyToDate),
     ["value"],
     [wideFill (sorted.map (fun r => cellNum (rlookup r valuesCol)))]⟩
  else
    let trip := df.rows.filterMap (fun r =>
      match cellDateKey (rlookup r indexCol), cellStr (rlookup r columnsCol) with
      | some k, some c => some (k, c, cellNum (rlookup r valuesCol))
      | _, _ => none)
    let dateKeys := dedupSortNat (trip.map (·.1))
    let cats := addCols [] (trip.map (·.2.1))
    let cellOf : Nat → String → Option ℚ := fun k c =>
      meanOpt ((trip.filter (fun t => t.1 = k && t.2.1 = c)).filterMap (·.2.2))
    let keptCats := cats.filter (fun c => dateKeys.any (fun k => (cellOf k c).isSome))
    ⟨dateKeys.map (fun k => some (keyToDate k)),
     keptCats,
     keptCats.map (fun c => wideFill (dateKeys.map (fun k => cellOf k c)))⟩

/-- Strictly increasing date index (chain of valid dates with strictly
increasing keys). -/
def strictIncrIdxB : List (Option Date) → Bool
  | some a :: some b :: r => decide (a.key < b.key) && strictIncrIdxB (some b :: r)
  | [_] => true
  | [] => true
  | _ => false

/-- Consecutive index entries exactly one month apart. -/
def oneMonthSpacedB : List (Option Date) → Bool
  | some a :: some b :: r => decide (b.monthIdx = a.monthIdx + 1) && oneMonthSpacedB (some b :: r)
  | [_] => true
  | [] => true
  | _ => false

def noNullCellsB (w : WideDF) : Bool := w.colData.all (fun col => col.all Option.isSome)

/-! ### Forecasting engine (`EconometricEngine`) -/

inductive EngErr where
  | emptyDataset
  | modelNotFitted
deriving DecidableEq

/-- The interface of a fitted `pmdarima` model as used by the engine: the
chosen orders and information criteria, the in-sample residuals, and the
forecast stream (mean, lower and upper 95% bound for each step ahead) of
which `predict(n_periods)` takes the first `n_periods` entries. -/
structure SModel where
  order : Nat × Nat × Nat
  seasonalOrder : Nat × Nat × Nat × Nat
  aicV : ℚ
  bicV : ℚ
  resid : List ℚ
  fc : Nat → ℚ × ℚ × ℚ

structure Engine where
  y : List (Date × Option ℚ)
  model : Option SModel

/-- One cell of the engine's `interpolate(method="linear")` (default
forward limit direction): interior gaps linearly interpolated, trailing
gaps clamped to the last valid value, leading gaps left as NaN. -/
def interpFwdCell (xs : List (Option ℚ)) (i : Nat) : Option ℚ :=
  match xs.getD i none with
  | some v => some v
  | none =>
    match prevSome xs i with
    | none => none
    | some jv =>
      match nextSome xs i with
      | some kv =>
        some (jv.2 + (kv.2 - jv.2) * ((i : ℚ) - (jv.1 : ℚ)) / ((kv.1 : ℚ) - (jv.1 : ℚ)))
      | none => some jv.2

def monthsOf (s : List (Date × Option ℚ)) : List Nat := s.map (fun p => p.1.monthIdx)

/-- Embedding of `_validate_and_set_freq` (analysis_services.py lines
24-70) at the value level: empty-series check, then
`resample("MS").mean()` (the complete month-start grid between the
earliest and latest observed month, mean of the non-NaN values of each
month) followed by linear interpolation; sorting does not change the
resampled result and the float cast is the identity here. -/
def normalizeSeries (s : List (Date × Option ℚ)) : Except EngErr (List (Date × Option ℚ)) :=
  match monthsOf s with
  | [] => .error .emptyDataset
  | m0 :: ms =>
    let lo := ms.foldl Nat.min m0
    let hi := ms.foldl Nat.max m0
    let cnt := hi - lo + 1
    let vals := (List.range cnt).map (fun i =>
      meanOpt (s.filterMap (fun p => if p.1.monthIdx = lo + i then p.2 else none)))
    .ok ((List.range cnt).map (fun i => (monthStart (lo + i), interpFwdCell vals i)))

/-- Engine construction (`__init__`): validate and normalize the target;
the model starts unfitted. -/
def mkEngine (s : List (Date × Option ℚ)) : Except EngErr Engine :=
  (normalizeSeries s).map (fun y => ⟨y, none⟩)

structure FitRes where
  order : Nat × Nat × Nat
  seasonalOrder : Nat × Nat × Nat × Nat
  aicV : ℚ
  bicV : ℚ

/-- Embedding of `fit`: `pm.auto_arima` (the external stepwise search,
passed as a function) produces a fitted model which is stored, and its
orders / AIC / BIC are returned. -/
def fitE (autoArima : List (Date × Option ℚ) → SModel) (e : Engine) : Engine × FitRes :=
  let md := autoArima e.y
  (⟨e.y, some md⟩, ⟨md.order, md.seasonalOrder, md.aicV, md.bicV⟩)

structure Diag where
  lbPvalue : ℚ
  isWhiteNoise : Bool
  residMean : ℚ
  residStd : ℚ
deriving DecidableEq

def meanQ (vs : List ℚ) : ℚ := if vs.isEmpty then 0 else vs.sum / (vs.length : ℚ)

/-- Embedding of `diagnose` (analysis_services.py lines 105-117):
fails when no model is fitted; otherwise runs the Ljung-Box test (the
external `acorr_ljungbox`, passed as the p-value function `lb`) at lag 12
when more than 12 residuals exist, else at lag 1; the white-noise flag is
exactly p-value > 0.05; `np.std` is the external function `stdFn`. -/
def diagnoseE (lb : List ℚ → Nat → ℚ) (stdFn : List ℚ → ℚ) (e : Engine) : Except EngErr Diag :=
  match e.model with
  | none => .error .modelNotFitted
  | some md =>
    let lag := if md.resid.length > 12 then 12 else 1
    let p := lb md.resid lag
    .ok ⟨p, decide (p > 1 / 20), meanQ md.resid, stdFn md.resid⟩

structure Forecast where
  index : List Date
  mean : List ℚ
  lower : List ℚ
  upper : List ℚ
deriving DecidableEq

/-- Model of `pd.date_range(start, periods, freq="MS")`: month-start anchors from
`start` on, rolled forward to the next month start when `start` is not
itself a month start. -/
def dateRangeMS (start : Date) (periods : Nat) : List Date :=
  (List.range periods).map
    (fun i => monthStart ((if start.d = 1 then start.monthIdx else start.monthIdx + 1) + i))

def lastDateOf (y : List (Date × Option ℚ)) : Date := (y.getLastD (⟨1970, 1, 1⟩, none)).1

/-- Embedding of `predict` (analysis_services.py lines 119-139): fails when
no model is fitted; otherwise takes the first `n` entries of the model's
forecast stream and dates them by generating `n+1` month-start anchors
from the last history date and discarding the first. -/
def predictE (e : Engine) (n : Nat) : Except EngErr Forecast :=
  match e.model with
  | none => .error .modelNotFitted
  | some md =>
    .ok ⟨(dateRangeMS (lastDateOf e.y) (n + 1)).drop 1,
         (List.range n).map (fun i => (md.fc i).1),
         (List.range n).map (fun i => (md.fc i).2.1),
         (List.range n).map (fun i => (md.fc i).2.2)⟩

/-! ### Forecast endpoint data checks (`predict_time_series`) -/

inductive ApiErr where
  | notFound
  | catColMissing
  | wideEmpty
  | insufficientData (n : Nat)
deriving DecidableEq

/-- Embedding of main.py lines 105-120: 404 on an empty tidy table, locate
the category column (name containing 品目), pivot to wide format, 404 on
an empty wide table, reject with the actual observation count when the
target series (first wide column) has fewer than 24 points, otherwise
return the target history. -/
def extractTarget (df : DF) : Except ApiErr (List (Option Date) × List (Option ℚ)) :=
  if df.rows.isEmpty then .error .notFound
  else
    match df.cols.find? (fun c => containsS c "品目") with
    | none => .error .catColMissing
    | some tc =>
      let wide := toWideFormat df "date" tc "value"
      if wide.index.isEmpty || wide.cols.isEmpty then .error .wideEmpty
      else if wide.index.length < 24 then .error (.insufficientData wide.index.length)
      else .ok (wide.index, wide.colData.headD [])

/-! ### Heap model for the constructor's frame property

The caller's series lives at a heap location; `data = data.copy()`
allocates a fresh location and the in-place `sort_index` writes only to
that fresh location, so the caller's cell is never written. -/

abbrev SeriesV := List (Date × Option ℚ)

structure Store where
  cells : List SeriesV
deriving DecidableEq

def Store.readH (h : Store) (l : Nat) : SeriesV := h.cells.getD l []

def Store.allocH (h : Store) (v : SeriesV) : Store × Nat := (⟨h.cells ++ [v]⟩, h.cells.length)

def Store.writeH (h : Store) (l : Nat) (v : SeriesV) : Store := ⟨h.cells.set l v⟩

def sortSeriesV (s : SeriesV) : SeriesV := sortByKey (fun p => p.1.key) s

/-- Heap-level `_validate_and_set_freq`: copy the argument into a fresh
cell, check emptiness, sort the copy in place, then bind the resampled
and interpolated result (a fresh object) to a fresh cell and return its
location. -/
def validateH (h : Store) (l : Nat) : Except EngErr (Store × Nat) :=
  let s := h.readH l
  let c := h.allocH s
  if s.isEmpty then .error .emptyDataset
  else
    let h2 := c.1.writeH c.2 (sortSeriesV s)
    match normalizeSeries (sortSeriesV s) with
    | .error e => .error e
    | .ok yv =>
      let a2 := h2.allocH yv
      .ok (a2.1, a2.2)

/-- Heap-level `__init__`: validate the target series and, when present,
the exogenous series. -/
def engineInitH (h : Store) (lt : Nat) (lx : Option Nat) :
    Except EngErr (Store × Nat × Option Nat) :=
  match validateH h lt with
  | .error e => .error e
  | .ok (h1, ry) =>
    match lx with
    | none => .ok (h1, ry, none)
    | some l =>
      match validateH h1 l with
      | .error e => .error e
      | .ok (h2, rx) => .ok (h2, ry, some rx)

/-! ### Helper lemmas -/

theorem sorted_sortByKey {α : Type} (key : α → Nat) (l : List α) :
    List.Sorted (fun x y => key x ≤ key y) (sortByKey key l) := by
  haveI : IsTotal α (fun x y => key x ≤ key y) := ⟨fun a b => Nat.le_total _ _⟩
  haveI : IsTrans α (fun x y => key x ≤ key y) := ⟨fun a b c => Nat.le_trans⟩
  exact List.sorted_insertionSort _ l

theorem mem_sortByKey {α : Type} (key : α → Nat) (l : List α) (x : α)
    (h : x ∈ sortByKey key l) : x ∈ l :=
  (List.perm_insertionSort _ l).mem_iff.mp h

def strictChainNat : List Nat → Bool
  | [] => true
  | [_] => true
  | a :: b :: r => decide (a < b) && strictChainNat (b :: r)

theorem strictChainNat_tail (a : Nat) (l : List Nat)
    (h : strictChainNat (a :: l) = true) : strictChainNat l = true := by
  cases l with
  | nil => rfl
  | cons b bs =>
    simp only [strictChainNat, Bool.and_eq_true] at h
    exact h.2

theorem strictChainNat_insDedup (k : Nat) (l : List Nat)
    (h : strictChainNat l = true) : strictChainNat (insDedupNat k l) = true := by
  induction l with
  | nil => rfl
  | cons a as ih =>
    by_cases h1 : k < a
    · simp only [insDedupNat, if_pos h1, strictChainNat, Bool.and_eq_true, decide_eq_true_iff]
      exact ⟨h1, h⟩
    · by_cases h2 : k = a
      · simpa only [insDedupNat, if_neg h1, if_pos h2] using h
      · have hak : a < k := by omega
        have htl := strictChainNat_tail a as h
        have hins := ih htl
        simp only [insDedupNat, if_neg h1, if_neg h2]
        cases as with
        | nil =>
          simp [insDedupNat, strictChainNat, hak]
        | cons b bs =>
          by_cases h3 : k < b
          · simp only [insDedupNat, if_pos h3, strictChainNat, Bool.and_eq_true,
              decide_eq_true_iff] at hins ⊢
            exact ⟨hak, hins⟩
          · by_cases h4 : k = b
            · simpa only [insDedupNat, if_neg h3, if_pos h4] using h
            · have hab : a < b := by
                simp only [strictChainNat, Bool.and_eq_true, decide_eq_true_iff] at h
                exact h.1
              simp only [insDedupNat, if_neg h3, if_neg h4] at hins ⊢
              simp only [strictChainNat, Bool.and_eq_true, decide_eq_true_iff]
              exact ⟨hab, hins⟩

theorem strictChainNat_dedupSortNat (l : List Nat) :
    strictChainNat (dedupSortNat l) = true := by
  induction l with
  | nil => rfl
  | cons a as ih => exact strictChainNat_insDedup a _ ih

theorem key_keyToDate (k : Nat) : (keyToDate k).key = k := by
  simp only [keyToDate, Date.key]
  omega

theorem monthIdx_monthStart (k : Nat) : (monthStart k).monthIdx = k := by
  simp only [monthStart, Date.monthIdx]
  omega

theorem strictIncrIdxB_map_keyToDate (ks : List Nat)
    (h : strictChainNat ks = true) :
    strictIncrIdxB (ks.map (fun k => some (keyToDate k))) = true := by
  induction ks with
  | nil => rfl
  | cons a as ih =>
    cases as with
    | nil => rfl
    | cons b bs =>
      simp only [strictChainNat, Bool.and_eq_true, decide_eq_true_iff] at h
      simp only [List.map_cons, strictIncrIdxB, Bool.and_eq_true, decide_eq_true_iff]
      refine ⟨by rw [key_keyToDate, key_keyToDate]; exact h.1, ?_⟩
      simpa only [List.map_cons] using ih h.2

theorem prevSome_isSome (xs : List (Option ℚ)) (i j : Nat) (hj : j ≤ i)
    (hv : (xs.getD j none).isSome = true) : (prevSome xs i).isSome = true := by
  rw [prevSome]
  cases hfs : (List.range (i + 1)).reverse.findSome?
      (fun j => (xs.getD j none).map (fun v => (j, v))) with
  | some p => rfl
  | none =>
    rw [List.findSome?_eq_none_iff] at hfs
    have hmem : j ∈ (List.range (i + 1)).reverse := by
      rw [List.mem_reverse, List.mem_range]
      omega
    have := hfs j hmem
    rw [Option.map_eq_none'] at this
    rw [this] at hv
    simp at hv

theorem nextSome_isSome (xs : List (Option ℚ)) (i j : Nat) (hj : i ≤ j)
    (hjl : j < xs.length) (hv : (xs.getD j none).isSome = true) :
    (nextSome xs i).isSome = true := by
  rw [nextSome]
  cases hfs : (List.range' i (xs.length - i)).findSome?
      (fun j => (xs.getD j none).map (fun v => (j, v))) with
  | some p => rfl
  | none =>
    rw [List.findSome?_eq_none_iff] at hfs
    have hmem : j ∈ List.range' i (xs.length - i) := by
      rw [List.mem_range'_1]
      omega
    have := hfs j hmem
    rw [Option.map_eq_none'] at this
    rw [this] at hv
    simp at hv

theorem interpCell_isSome (xs : List (Option ℚ)) (i j : Nat)
    (hj : j < xs.length) (hv : (xs.getD j none).isSome = true) :
    (interpCell xs i).isSome = true := by
  simp only [interpCell]
  cases hx : xs.getD i none with
  | some v => rfl
  | none =>
    rcases le_or_lt j i with hle | hlt
    · have hp := prevSome_isSome xs i j hle hv
      obtain ⟨jv, hjv⟩ := Option.isSome_iff_exists.mp hp
      rw [hjv]
      cases nextSome xs i with
      | some kv => rfl
      | none => rfl
    · have hn := nextSome_isSome xs i j (Nat.le_of_lt hlt) hj hv
      obtain ⟨kv, hkv⟩ := Option.isSome_iff_exists.mp hn
      rw [hkv]
      cases prevSome xs i with
      | some jv => rfl
      | none => rfl

theorem fillBoth_all_isSome (xs : List (Option ℚ))
    (hex : ∃ j, j < xs.length ∧ (xs.getD j none).isSome = true) :
    (fillBoth xs).all Option.isSome = true := by
  obtain ⟨j, hj, hv⟩ := hex
  rw [fillBoth, List.all_eq_true]
  intro x hx
  obtain ⟨i, _, rfl⟩ := List.mem_map.mp hx
  exact interpCell_isSome xs i j hj hv

theorem bfillL_all_isSome (xs : List (Option ℚ)) (h : xs.all Option.isSome = true) :
    (bfillL xs).all Option.isSome = true := by
  rw [List.all_eq_true] at h
  rw [bfillL, List.all_eq_true]
  intro x hx
  obtain ⟨i, hi, rfl⟩ := List.mem_map.mp hx
  have hi' := List.mem_range.mp hi
  have hsome : (xs.getD i none).isSome = true := by
    rw [List.getD_eq_getElem xs none hi']
    exact h _ (List.getElem_mem hi')
  obtain ⟨v, hv⟩ := Option.isSome_iff_exists.mp hsome
  simp only [bfillCell, hv]
  rfl

theorem ffillL_all_isSome (xs : List (Option ℚ)) (h : xs.all Option.isSome = true) :
    (ffillL xs).all Option.isSome = true := by
  rw [List.all_eq_true] at h
  rw [ffillL, List.all_eq_true]
  intro x hx
  obtain ⟨i, hi, rfl⟩ := List.mem_map.mp hx
  have hi' := List.mem_range.mp hi
  have hsome : (xs.getD i none).isSome = true := by
    rw [List.getD_eq_getElem xs none hi']
    exact h _ (List.getElem_mem hi')
  obtain ⟨v, hv⟩ := Option.isSome_iff_exists.mp hsome
  simp only [ffillCell, hv]
  rfl

theorem wideFill_all_isSome (xs : List (Option ℚ))
    (hex : ∃ j, j < xs.length ∧ (xs.getD j none).isSome = true) :
    (wideFill xs).all Option.isSome = true :=
  ffillL_all_isSome _ (bfillL_all_isSome _ (fillBoth_all_isSome xs hex))

theorem pivotDense (dateKeys : List Nat) (cats : List String)
    (cellOf : Nat → String → Option ℚ) :
    ((cats.filter (fun c => dateKeys.any (fun k => (cellOf k c).isSome))).map
      (fun c => wideFill (dateKeys.map (fun k => cellOf k c)))).all
      (fun col => col.all Option.isSome) = true := by
  rw [List.all_eq_true]
  intro col hcol
  obtain ⟨c, hc, rfl⟩ := List.mem_map.mp hcol
  have hpred := (List.mem_filter.mp hc).2
  rw [List.any_eq_true] at hpred
  obtain ⟨k, hk, hks⟩ := hpred
  obtain ⟨n, hn, hkn⟩ := List.mem_iff_getElem.mp hk
  apply wideFill_all_isSome
  refine ⟨n, by simpa using hn, ?_⟩
  rw [List.getD_eq_getElem _ none (by simpa using hn), List.getElem_map, hkn]
  exact hks

/-! ### C1: wide projection invariants -/

/-- A non-empty tidy table, all dates valid, whose distinct dates are two
months apart. -/
def c1df : DF :=
  ⟨["date", "品目分類", "value"],
   [[("date", some (CVal.date ⟨2023, 1, 1⟩)), ("品目分類", some (CVal.str "A")),
     ("value", some (CVal.num 10))],
    [("date", some (CVal.date ⟨2023, 3, 1⟩)), ("品目分類", some (CVal.str "A")),
     ("value", some (CVal.num 12))]]⟩

/-- C1 counterexample: `to_wide_format` does not resample, so a non-empty
tidy table whose valid dates are 2023-01-01 and 2023-03-01 produces a wide
table whose index is those two dates — not spaced at one-month
intervals. -/
theorem c1_wide_not_month_spaced :
    c1df.rows ≠ []
  ∧ c1df.rows.all rowHasParsedDate = true
  ∧ (toWideFormat c1df "date" "品目分類" "value").index
      = [some ⟨2023, 1, 1⟩, some ⟨2023, 3, 1⟩]
  ∧ oneMonthSpacedB (toWideFormat c1df "date" "品目分類" "value").index = false :=
  ⟨by decide, by decide, by decide, by decide⟩

/-- C1 (amended): when the category column is present, the wide table's
index is strictly increasing (the sorted distinct input dates — not
necessarily one-month spaced) and no cell is null. -/
theorem c1_wide_invariants (df : DF) (cat : String)
    (hcat : df.cols.contains cat = true) :
    strictIncrIdxB (toWideFormat df "date" cat "value").index = true
  ∧ noNullCellsB (toWideFormat df "date" cat "value") = true := by
  by_cases h1 :
      (df.rows.isEmpty || !df.cols.contains "date" || !df.cols.contains "value") = true
  · rw [toWideFormat, if_pos h1]
    exact ⟨rfl, rfl⟩
  · have hne : (!df.cols.contains cat) = false := by rw [hcat]; rfl
    simp only [toWideFormat, h1, Bool.false_eq_true, if_false, hne]
    constructor
    · exact strictIncrIdxB_map_keyToDate _ (strictChainNat_dedupSortNat _)
    · exact pivotDense _ _ _

/-- Witness for C1 (amended) at a concrete tidy table with a category
column. -/
theorem c1_wide_invariants_witness :
    c1df.cols.contains "品目分類" = true
  ∧ strictIncrIdxB (toWideFormat c1df "date" "品目分類" "value").index = true
  ∧ noNullCellsB (toWideFormat c1df "date" "品目分類" "value") = true :=
  ⟨by decide,
   (c1_wide_invariants c1df "品目分類" (by decide)).1,
   (c1_wide_invariants c1df "品目分類" (by decide)).2⟩

/-! ### C4: tidy table shape -/

/-- Payload whose single row has a valid date label but a non-numeric
value. -/
def c4p : Payload :=
  ⟨true, [[("@time", "t1"), ("$", "abc")]],
   [⟨"time", "時間軸（月次）", [⟨"t1", "2023年3月"⟩]⟩]⟩

def c4out : DF :=
  ⟨["value", "date"],
   [[("value", none), ("date", some (CVal.date ⟨2023, 3, 1⟩))]]⟩

/-- C4 counterexample: the transform drops unparseable-date rows but not
null-value rows — a row whose value failed numeric coercion (NaN) stays in
the returned tidy table. -/
theorem c4_null_value_row_retained :
    transformToTidy c4p = .ok c4out
  ∧ c4out.rows.any (fun r => (rlookup r "value").isNone) = true :=
  ⟨by decide, by decide⟩

/-- C4 (amended): every tidy table produced through a detected time-axis
column is sorted ascending by date and contains no row whose date failed
to parse; rows with a null value are retained (the drop is on dates
only). -/
theorem c4_tidy_sorted_and_dates_valid (p : Payload) (df3 : DF) (tc : String)
    (rest : List String) (df : DF)
    (hpre : tidyPhaseOne p = .ok df3)
    (htc : timeColsOf df3 = tc :: rest)
    (hok : transformToTidy p = .ok df) :
    List.Sorted (fun r1 r2 => dateKeyOfRow r1 ≤ dateKeyOfRow r2) df.rows
  ∧ df.rows.all rowHasParsedDate = true := by
  unfold transformToTidy at hok
  rw [hpre] at hok
  simp only [htc] at hok
  split at hok
  · exact absurd hok (by simp)
  · have hdf := Except.ok.inj hok
    subst hdf
    constructor
    · exact sorted_sortByKey dateKeyOfRow _
    · rw [List.all_eq_true]
      intro r hr
      have hr2 := mem_sortByKey dateKeyOfRow _ r hr
      exact (List.mem_filter.mp hr2).2

/-- Intermediate table of `tidyPhaseOne` on `c4p`. -/
def c4mid : DF :=
  ⟨["value", "時間軸（月次）"],
   [[("value", none), ("時間軸（月次）", some (CVal.str "2023年3月"))]]⟩

/-- Witness for C4 (amended) at the concrete payload `c4p`. -/
theorem c4_tidy_sorted_and_dates_valid_witness :
    tidyPhaseOne c4p = .ok c4mid
  ∧ timeColsOf c4mid = ["時間軸（月次）"]
  ∧ transformToTidy c4p = .ok c4out
  ∧ (List.Sorted (fun r1 r2 => dateKeyOfRow r1 ≤ dateKeyOfRow r2) c4out.rows
      ∧ c4out.rows.all rowHasParsedDate = true) :=
  ⟨by decide, by decide, by decide,
   c4_tidy_sorted_and_dates_valid c4p c4mid "時間軸（月次）" [] c4out
     (by decide) (by decide) (by decide)⟩

/-! ### C5: empty-result handling -/

/-- Payload whose single row's date label maps to an unparseable string,
so every row is dropped during cleaning. -/
def c5p : Payload :=
  ⟨true, [[("@time", "x1"), ("$", "5")]],
   [⟨"time", "時間軸（月次）", [⟨"x1", "garbage"⟩]⟩]⟩

/-- C5 counterexample: when date parsing drops every row, the transform
does NOT fail — it returns a zero-row tidy table (the `no rows` error is
only raised on the raw value array, before cleaning). -/
theorem c5_empty_after_cleaning_no_error :
    transformToTidy c5p = .ok ⟨["value", "date"], []⟩ := by decide

/-- C5 (amended): the transform fails with the no-data error when the raw
value array yields zero rows, and with the missing-columns error when no
date column results; when cleaning drops all rows it instead returns an
empty tidy table, which the caller surfaces as "no data" (404). -/
theorem c5_empty_result_errors :
    (∀ p : Payload, p.hasStatData = true → p.values = [] →
      transformToTidy p = .error .noData)
  ∧ (∀ p : Payload, ∀ df3 : DF, tidyPhaseOne p = .ok df3 → timeColsOf df3 = [] →
      df3.cols.contains "date" = false →
      transformToTidy p = .error .missingColumns)
  ∧ (∀ df : DF, df.rows = [] → extractTarget df = .error .notFound) := by
  refine ⟨?_, ?_, ?_⟩
  · intro p hs hv
    have hpre : tidyPhaseOne p = .error .noData := by
      simp [tidyPhaseOne, hs, hv, mkDF, colsUnion]
    unfold transformToTidy
    rw [hpre]
  · intro p df3 hpre htc hd
    have hd' : "date" ∉ df3.cols := by simpa using hd
    unfold transformToTidy
    rw [hpre]
    simp [htc, hd']
  · intro df hrows
    simp [extractTarget, hrows]

/-- Witness for C5 (amended): the empty value array and the empty tidy
table cases, instantiated concretely. -/
theorem c5_empty_result_errors_witness :
    (⟨true, [], []⟩ : Payload).hasStatData = true
  ∧ (⟨true, [], []⟩ : Payload).values = []
  ∧ transformToTidy ⟨true, [], []⟩ = .error .noData
  ∧ (⟨["value", "date"], []⟩ : DF).rows = []
  ∧ extractTarget ⟨["value", "date"], []⟩ = .error .notFound :=
  ⟨rfl, rfl, c5_empty_result_errors.1 ⟨true, [], []⟩ rfl rfl, rfl,
   c5_empty_result_errors.2.2 ⟨["value", "date"], []⟩ rfl⟩

/-! ### C9: payload shape errors -/

/-- Payload with no classification-object list whose raw records already
carry a time-axis-named field. -/
def c9p : Payload := ⟨true, [[("時間軸（年次）", "2023"), ("$", "5")]], []⟩

def c9out : DF :=
  ⟨["date", "value"],
   [[("date", some (CVal.date ⟨2023, 1, 1⟩)), ("value", some (CVal.num 5))]]⟩

/-- C9 counterexample: a payload whose classification-object list is
entirely absent is processed successfully — its absence is tolerated
(relabeling is skipped), not a fatal shape error. -/
theorem c9_missing_class_obj_tolerated :
    c9p.classObjs = [] ∧ transformToTidy c9p = .ok c9out :=
  ⟨rfl, by decide⟩

/-- C9 (amended): a missing statistical-data object and a missing/empty
value array are fatal (two distinct errors); a missing classification-
object list is not itself an error — processing then fails only if no
usable date column results (the missing-columns error). -/
theorem c9_shape_errors :
    (∀ p : Payload, p.hasStatData = false → transformToTidy p = .error .statDataEmpty)
  ∧ (∀ p : Payload, p.hasStatData = true → p.values = [] →
      transformToTidy p = .error .noData) := by
  constructor
  · intro p hs
    have hpre : tidyPhaseOne p = .error .statDataEmpty := by
      simp [tidyPhaseOne, hs]
    unfold transformToTidy
    rw [hpre]
  · intro p hs hv
    have hpre : tidyPhaseOne p = .error .noData := by
      simp [tidyPhaseOne, hs, hv, mkDF, colsUnion]
    unfold transformToTidy
    rw [hpre]

/-- Witness for C9 (amended) at concrete payloads. -/
theorem c9_shape_errors_witness :
    (⟨false, [], []⟩ : Payload).hasStatData = false
  ∧ transformToTidy ⟨false, [], []⟩ = .error .statDataEmpty
  ∧ (⟨true, [], [⟨"a", "b", []⟩]⟩ : Payload).values = []
  ∧ transformToTidy ⟨true, [], [⟨"a", "b", []⟩]⟩ = .error .noData :=
  ⟨rfl, c9_shape_errors.1 ⟨false, [], []⟩ rfl, rfl,
   c9_shape_errors.2 ⟨true, [], [⟨"a", "b", []⟩]⟩ rfl rfl⟩

/-! ### C2: forecast shape -/

theorem drop_one_map_range {α : Type} (g : Nat → α) (n : Nat) :
    ((List.range (n + 1)).map g).drop 1 = (List.range n).map (fun i => g (i + 1)) := by
  rw [List.range_succ_eq_map, List.map_cons, List.map_map, List.drop_one, List.tail_cons]
  rfl

theorem getD_map_range {α : Type} (n i : Nat) (g : Nat → α) (d : α) (h : i < n) :
    ((List.range n).map g).getD i d = g i := by
  rw [List.getD_eq_getElem _ _ (by simpa using h), List.getElem_map, List.getElem_range]

theorem getLastD_map_range {α : Type} (cnt : Nat) (f : Nat → α) (d : α) (h : 0 < cnt) :
    ((List.range cnt).map f).getLastD d = f (cnt - 1) := by
  obtain ⟨m, rfl⟩ : ∃ m, cnt = m + 1 := ⟨cnt - 1, by omega⟩
  rw [List.range_succ, List.map_append]
  simp

/-- The normalized history ends on a month-start anchor. -/
theorem normalizeSeries_last_monthStart (s y : List (Date × Option ℚ))
    (hs : normalizeSeries s = .ok y) : ∃ K : Nat, lastDateOf y = monthStart K := by
  cases hmo : monthsOf s with
  | nil => simp [normalizeSeries, hmo] at hs
  | cons m0 ms =>
    simp only [normalizeSeries, hmo] at hs
    have hy := Except.ok.inj hs
    subst hy
    refine ⟨ms.foldl Nat.min m0 + (ms.foldl Nat.max m0 - ms.foldl Nat.min m0 + 1 - 1), ?_⟩
    rw [lastDateOf, getLastD_map_range _ _ _ (by omega)]

/-- C2: on a fitted engine whose history came from the normalizer,
`predict n` (n ≥ 1) returns parallel mean/lower/upper arrays of length n
and an index of length n computed by generating n+1 month-start anchors
from the last history date and discarding the first (which equals that
last date); the i-th forecast date is exactly i+1 months after the last
observed date, so the first is one month after it. -/
theorem c2_predict_shape (s y : List (Date × Option ℚ)) (md : SModel) (n : Nat)
    (hs : normalizeSeries s = .ok y) (hn : 1 ≤ n) :
    ∃ f : Forecast, predictE ⟨y, some md⟩ n = .ok f
      ∧ f.mean.length = n ∧ f.lower.length = n ∧ f.upper.length = n
      ∧ f.index.length = n
      ∧ f.index = (dateRangeMS (lastDateOf y) (n + 1)).drop 1
      ∧ (dateRangeMS (lastDateOf y) (n + 1)).headD ⟨1970, 1, 1⟩ = lastDateOf y
      ∧ f.index.headD ⟨1970, 1, 1⟩ = monthStart ((lastDateOf y).monthIdx + 1)
      ∧ (∀ i : Nat, i < n →
          f.index.getD i ⟨1970, 1, 1⟩ = monthStart ((lastDateOf y).monthIdx + 1 + i)) := by
  obtain ⟨K, hK⟩ := normalizeSeries_last_monthStart s y hs
  refine ⟨⟨(dateRangeMS (lastDateOf y) (n + 1)).drop 1,
           (List.range n).map (fun i => (md.fc i).1),
           (List.range n).map (fun i => (md.fc i).2.1),
           (List.range n).map (fun i => (md.fc i).2.2)⟩, rfl,
          by simp, by simp, by simp, ?_, rfl, ?_, ?_, ?_⟩
  · simp [dateRangeMS]
  · rw [hK]
    have hd1 : (monthStart K).d = 1 := rfl
    simp only [dateRangeMS, if_pos hd1, List.range_succ_eq_map, List.map_cons,
      List.headD_cons, monthIdx_monthStart, Nat.add_zero]
  · obtain ⟨m, rfl⟩ : ∃ m, n = m + 1 := ⟨n - 1, by omega⟩
    rw [hK]
    simp only [dateRangeMS, monthStart, monthIdx_monthStart]
    simp [drop_one_map_range, List.range_succ_eq_map, monthIdx_monthStart]
  · intro i hi
    rw [hK]
    simp only [dateRangeMS, monthIdx_monthStart]
    have hd1 : (monthStart K).d = 1 := rfl
    rw [if_pos hd1, drop_one_map_range, getD_map_range _ _ _ _ hi]
    congr 1
    omega

def wSeries : List (Date × Option ℚ) := [(⟨2023, 1, 1⟩, none)]

def wMd : SModel := ⟨(0, 0, 0), (0, 0, 0, 0), 0, 0, [], fun _ => (0, 0, 0)⟩

/-- Witness for C2 at a concrete normalized history and horizon 2. -/
theorem c2_predict_shape_witness :
    normalizeSeries wSeries = .ok wSeries
  ∧ (1 : Nat) ≤ 2
  ∧ (∃ f : Forecast, predictE ⟨wSeries, some wMd⟩ 2 = .ok f
      ∧ f.mean.length = 2 ∧ f.lower.length = 2 ∧ f.upper.length = 2
      ∧ f.index.length = 2
      ∧ f.index = (dateRangeMS (lastDateOf wSeries) (2 + 1)).drop 1
      ∧ (dateRangeMS (lastDateOf wSeries) (2 + 1)).headD ⟨1970, 1, 1⟩ = lastDateOf wSeries
      ∧ f.index.headD ⟨1970, 1, 1⟩ = monthStart ((lastDateOf wSeries).monthIdx + 1)
      ∧ (∀ i : Nat, i < 2 →
          f.index.getD i ⟨1970, 1, 1⟩
            = monthStart ((lastDateOf wSeries).monthIdx + 1 + i))) :=
  ⟨by decide, by decide, c2_predict_shape wSeries wSeries wMd 2 (by decide) (by decide)⟩

/-! ### C6: residual diagnostics -/

/-- C6: on a fitted engine, `diagnose` runs the Ljung-Box test at lag 12
when at least 13 residuals exist and at lag 1 otherwise, returns a p-value
in [0, 1] (given the statsmodels contract that `acorr_ljungbox` p-values
lie in [0, 1]), and the white-noise flag is exactly p-value > 0.05. -/
theorem c6_diagnose_lag_and_flag (lb : List ℚ → Nat → ℚ) (stdFn : List ℚ → ℚ)
    (e : Engine) (md : SModel)
    (hlb : ∀ r k, 0 ≤ lb r k ∧ lb r k ≤ 1) (hm : e.model = some md) :
    ∃ d : Diag, diagnoseE lb stdFn e = .ok d
      ∧ 0 ≤ d.lbPvalue ∧ d.lbPvalue ≤ 1
      ∧ d.isWhiteNoise = decide (d.lbPvalue > 1 / 20)
      ∧ d.lbPvalue = lb md.resid (if 13 ≤ md.resid.length then 12 else 1) := by
  simp only [diagnoseE, hm]
  exact ⟨_, rfl, (hlb _ _).1, (hlb _ _).2, rfl, rfl⟩

def wLb : List ℚ → Nat → ℚ := fun _ _ => 1 / 2

def wStd : List ℚ → ℚ := fun _ => 0

def wEng : Engine := ⟨[(⟨2023, 1, 1⟩, none)], some wMd⟩

/-- Witness for C6 at a concrete fitted engine and a concrete p-value
function satisfying the [0, 1] contract. -/
theorem c6_diagnose_lag_and_flag_witness :
    (∀ r k, 0 ≤ wLb r k ∧ wLb r k ≤ 1)
  ∧ wEng.model = some wMd
  ∧ (∃ d : Diag, diagnoseE wLb wStd wEng = .ok d
      ∧ 0 ≤ d.lbPvalue ∧ d.lbPvalue ≤ 1
      ∧ d.isWhiteNoise = decide (d.lbPvalue > 1 / 20)
      ∧ d.lbPvalue = wLb wMd.resid (if 13 ≤ wMd.resid.length then 12 else 1)) :=
  ⟨fun r k => ⟨by norm_num [wLb], by norm_num [wLb]⟩, rfl,
   c6_diagnose_lag_and_flag wLb wStd wEng wMd
     (fun r k => ⟨by norm_num [wLb], by norm_num [wLb]⟩) rfl⟩

/-! ### C7: fit state machine -/

/-- C7: before a successful `fit` (no stored model) both `diagnose` and
`predict` fail with the model-not-fitted error; after `fit` stores the
model found by the search, both succeed (and, being pure, succeed on
every subsequent call). -/
theorem c7_state_machine (lb : List ℚ → Nat → ℚ) (stdFn : List ℚ → ℚ)
    (auto : List (Date × Option ℚ) → SModel) (e : Engine) (n : Nat) :
    (e.model = none →
      diagnoseE lb stdFn e = .error .modelNotFitted
        ∧ predictE e n = .error .modelNotFitted)
  ∧ (fitE auto e).1.model = some (auto e.y)
  ∧ (∃ d : Diag, diagnoseE lb stdFn (fitE auto e).1 = .ok d)
  ∧ (∃ f : Forecast, predictE (fitE auto e).1 n = .ok f) := by
  refine ⟨fun hm => ⟨?_, ?_⟩, rfl, ?_, ?_⟩
  · simp [diagnoseE, hm]
  · simp [predictE, hm]
  · exact ⟨_, rfl⟩
  · exact ⟨_, rfl⟩

def wAuto : List (Date × Option ℚ) → SModel := fun _ => wMd

def wEng0 : Engine := ⟨[(⟨2023, 1, 1⟩, none)], none⟩

/-- Witness for C7 at a concrete unfitted engine. -/
theorem c7_state_machine_witness :
    wEng0.model = none
  ∧ diagnoseE wLb wStd wEng0 = .error .modelNotFitted
  ∧ predictE wEng0 3 = .error .modelNotFitted
  ∧ (∃ d : Diag, diagnoseE wLb wStd (fitE wAuto wEng0).1 = .ok d)
  ∧ (∃ f : Forecast, predictE (fitE wAuto wEng0).1 3 = .ok f) :=
  ⟨rfl,
   ((c7_state_machine wLb wStd wAuto wEng0 3).1 rfl).1,
   ((c7_state_machine wLb wStd wAuto wEng0 3).1 rfl).2,
   (c7_state_machine wLb wStd wAuto wEng0 3).2.2.1,
   (c7_state_machine wLb wStd wAuto wEng0 3).2.2.2⟩

/-! ### C8: minimum history length -/

/-- C8: a forecast request whose target history (the first column of the
wide table, which the endpoint also returns as the history payload) has
fewer than 24 observations is rejected with the insufficient-data error
carrying the actual observation count; with 24 or more it proceeds. -/
theorem c8_insufficient_history (df : DF) (tc : String)
    (hr : df.rows.isEmpty = false)
    (hf : df.cols.find? (fun c => containsS c "品目") = some tc)
    (hw : ((toWideFormat df "date" tc "value").index.isEmpty
        || (toWideFormat df "date" tc "value").cols.isEmpty) = false) :
    ((toWideFormat df "date" tc "value").index.length < 24 →
      extractTarget df
        = .error (.insufficientData (toWideFormat df "date" tc "value").index.length))
  ∧ (24 ≤ (toWideFormat df "date" tc "value").index.length →
      extractTarget df
        = .ok ((toWideFormat df "date" tc "value").index,
               (toWideFormat df "date" tc "value").colData.headD [])) := by
  constructor
  · intro hlt
    simp only [extractTarget, hr, Bool.false_eq_true, if_false, hf, hw]
    rw [if_pos hlt]
  · intro hge
    simp only [extractTarget, hr, Bool.false_eq_true, if_false, hf, hw]
    rw [if_neg (by omega)]

/-- A tidy table with a single observation (so a one-row wide table). -/
def c8df : DF :=
  ⟨["date", "品目分類", "value"],
   [[("date", some (CVal.date ⟨2023, 1, 1⟩)), ("品目分類", some (CVal.str "A")),
     ("value", some (CVal.num 10))]]⟩

/-- Witness for C8: one observation is fewer than 24, so the request is
rejected with count 1. -/
theorem c8_insufficient_history_witness :
    c8df.rows.isEmpty = false
  ∧ c8df.cols.find? (fun c => containsS c "品目") = some "品目分類"
  ∧ ((toWideFormat c8df "date" "品目分類" "value").index.isEmpty
      || (toWideFormat c8df "date" "品目分類" "value").cols.isEmpty) = false
  ∧ (toWideFormat c8df "date" "品目分類" "value").index.length < 24
  ∧ extractTarget c8df
      = .error (.insufficientData (toWideFormat c8df "date" "品目分類" "value").index.length) :=
  ⟨by decide, by decide, by decide, by decide,
   (c8_insufficient_history c8df "品目分類" (by decide) (by decide) (by decide)).1 (by decide)⟩

/-! ### C10: the constructor does not mutate the caller's series -/

theorem getD_append_left_sv (l l2 : List SeriesV) (i : Nat) (h : i < l.length) :
    (l ++ l2).getD i [] = l.getD i [] := by
  simp [List.getD, List.getElem?_append_left h]

theorem getD_set_ne_sv (l : List SeriesV) (m : Nat) (v : SeriesV) (i : Nat) (h : i ≠ m) :
    (l.set m v).getD i [] = l.getD i [] := by
  simp [List.getD, List.getElem?_set_ne (Ne.symm h)]

theorem validateH_frame (h : Store) (l : Nat) (h2 : Store) (r : Nat)
    (hok : validateH h l = .ok (h2, r)) (j : Nat) (hj : j < h.cells.length) :
    h2.readH j = h.readH j := by
  unfold validateH at hok
  simp only [Store.allocH, Store.writeH] at hok
  split at hok
  · exact absurd hok (by simp)
  · split at hok
    · exact absurd hok (by simp)
    · have hh := congrArg Prod.fst (Except.ok.inj hok)
      simp only at hh
      subst hh
      simp only [Store.readH]
      rw [getD_append_left_sv _ _ _ (by simp; omega)]
      rw [getD_set_ne_sv _ _ _ _ (by omega)]
      rw [getD_append_left_sv _ _ _ hj]

theorem validateH_grows (h : Store) (l : Nat) (h2 : Store) (r : Nat)
    (hok : validateH h l = .ok (h2, r)) : h.cells.length ≤ h2.cells.length := by
  unfold validateH at hok
  simp only [Store.allocH, Store.writeH] at hok
  split at hok
  · exact absurd hok (by simp)
  · split at hok
    · exact absurd hok (by simp)
    · have hh := congrArg Prod.fst (Except.ok.inj hok)
      simp only at hh
      subst hh
      simp

/-- C10: constructing the engine never writes to the caller's heap cells:
`_validate_and_set_freq` copies the series before its in-place sort, so
after construction (successful or not via the empty-series error), every
pre-existing cell — in particular the caller's target and exogenous
series, with their index values, order and data — is unchanged. -/
theorem c10_constructor_frame (h : Store) (lt : Nat) (lx : Option Nat) (h2 : Store)
    (ry : Nat) (rx : Option Nat)
    (hok : engineInitH h lt lx = .ok (h2, ry, rx)) (j : Nat) (hj : j < h.cells.length) :
    h2.readH j = h.readH j := by
  cases lx with
  | none =>
    unfold engineInitH at hok
    cases heq1 : validateH h lt with
    | error e =>
      rw [heq1] at hok
      exact absurd hok (by simp)
    | ok p =>
      obtain ⟨h1, r1⟩ := p
      rw [heq1] at hok
      have hh := congrArg Prod.fst (Except.ok.inj hok)
      simp only at hh
      subst hh
      exact validateH_frame h lt h1 r1 heq1 j hj
  | some l =>
    unfold engineInitH at hok
    cases heq1 : validateH h lt with
    | error e =>
      rw [heq1] at hok
      exact absurd hok (by simp)
    | ok p =>
      obtain ⟨h1, r1⟩ := p
      rw [heq1] at hok
      dsimp only at hok
      cases heq2 : validateH h1 l with
      | error e =>
        rw [heq2] at hok
        exact absurd hok (by simp)
      | ok q =>
        obtain ⟨hmid, rmid⟩ := q
        rw [heq2] at hok
        have hh := congrArg Prod.fst (Except.ok.inj hok)
        simp only at hh
        subst hh
        have hj1 : j < h1.cells.length :=
          Nat.lt_of_lt_of_le hj (validateH_grows h lt h1 r1 heq1)
        rw [validateH_frame h1 l hmid rmid heq2 j hj1]
        exact validateH_frame h lt h1 r1 heq1 j hj

def wStore : Store := ⟨[[(⟨2023, 1, 1⟩, none)], [(⟨2022, 5, 1⟩, none)]]⟩

def wStoreOut : Store :=
  ⟨[[(⟨2023, 1, 1⟩, none)], [(⟨2022, 5, 1⟩, none)], [(⟨2023, 1, 1⟩, none)],
    [(⟨2023, 1, 1⟩, none)], [(⟨2022, 5, 1⟩, none)], [(⟨2022, 5, 1⟩, none)]]⟩

/-- Witness for C10: constructing an engine over a two-cell store (target
at 0, exogenous at 1) leaves both original cells unchanged. -/
theorem c10_constructor_frame_witness :
    engineInitH wStore 0 (some 1) = .ok (wStoreOut, 3, some 5)
  ∧ 0 < wStore.cells.length ∧ 1 < wStore.cells.length
  ∧ wStoreOut.readH 0 = wStore.readH 0
  ∧ wStoreOut.readH 1 = wStore.readH 1 :=
  ⟨by decide, by decide, by decide,
   c10_constructor_frame wStore 0 (some 1) wStoreOut 3 (some 5) (by decide) 0 (by decide),
   c10_constructor_frame wStore 0 (some 1) wStoreOut 3 (some 5) (by decide) 1 (by decide)⟩
